import Mathlib

/-!
Shallow embedding of the replication gateway `sheep/gateway.c` of the
sheepdog distributed object store, together with theorems about its
read / write / remove entry points, the fan-out send phase and the
completion-wait loop.

External collaborators (connection pool, replica resolver, object cache,
transport primitives, retry oracle) are modelled as explicit environment
parameters; every call the gateway makes into them is recorded in an
action log so that statements about "no network I/O", "one RPC per
replica", "connection returned vs evicted" can be phrased as properties
of that log.
-/

/-- Modelled from the spec: result code `Success` (the constant
`SD_RES_SUCCESS` lives in a header outside this repository's sources;
only its distinctness from the other codes matters). -/
def SD_RES_SUCCESS : Nat := 0

/-- Modelled from the spec: result code `NetworkError`
(`SD_RES_NETWORK_ERROR`, defined outside the supplied sources). -/
def SD_RES_NETWORK_ERROR : Nat := 1

/-- Modelled from the spec: result code `ReadOnlyViolation`
(`SD_RES_READONLY`, defined outside the supplied sources). -/
def SD_RES_READONLY : Nat := 2

/-- Modelled from the spec: the inter-node protocol version constant
`SD_SHEEP_PROTO_VER`, defined outside the supplied sources. -/
def SD_SHEEP_PROTO_VER : Nat := 2

/-- Modelled from the spec: the fixed retry budget `MAX_RETRY_COUNT`
("a fixed retry budget (default small constant, e.g. on the order of
tens)"); defined outside the supplied sources. -/
def MAX_RETRY_COUNT : Nat := 30

/-- Modelled from the spec: the request header `struct sd_req` (defined in a
header outside the supplied sources).  The fields the gateway touches or
reads (`proto_ver`, `opcode`, `epoch`, `data_length`, `obj.oid`) are explicit;
every remaining header field is abstracted into `restFields`, which the
gateway never modifies. -/
structure SdReq where
  proto_ver : Nat
  opcode : Nat
  flags : Nat
  epoch : Nat
  data_length : Nat
  oid : Nat
  restFields : Nat
  deriving Repr, DecidableEq

/-- The per-call request object (`struct request`): its header `rq` and the
`local` origin flag.  The payload and response buffers are modelled in the
environments below. -/
structure Request where
  rq : SdReq
  localReq : Bool
  deriving Repr, DecidableEq

/-- `gateway_init_fwd_hdr`: copy the whole incoming header, then rewrite the
opcode through `gateway_to_peer_opcode` (an external table, passed as a
function) and stamp the protocol version. -/
def gateway_init_fwd_hdr (gateway_to_peer_opcode : Nat → Nat) (hdr : SdReq) : SdReq :=
  { hdr with
    opcode := gateway_to_peer_opcode hdr.opcode
    proto_ver := SD_SHEEP_PROTO_VER }

/-- A virtual node as the read path sees it: whether `vnode_is_local` holds
of it, and the node identity `v->node->nid` behind it. -/
structure SdVnode where
  isLocal : Bool
  nid : Nat
  deriving Repr, DecidableEq

/-- Calls the read path makes into its collaborators, in order. -/
inductive ReadAction
  | cacheCall
  | localRead
  | remoteRead (nid : Nat)
  deriving Repr, DecidableEq

/-- Environment of `gateway_read_obj`: the cache policy bits, the resolved
vnode list (`oid_to_vnodes` output, one entry per copy), the outcome of the
single local read (`peer_read_obj`), the per-node outcome of a remote read
(`sheep_exec_req`), the response a successful remote read delivers, and the
value of `random()`. -/
structure ReadEnv where
  enableCache : Bool
  bypassCache : Bool
  cacheResult : Nat
  vnodes : List SdVnode
  localReadResult : Nat
  execResult : Nat → Nat
  rspOf : Nat → Nat
  j : Nat

/-- The replica visit order of the read fallback pass: index `i` of the loop
visits `obj_vnodes[(i + j) % nr_copies]`. -/
def cyclicOrder (j : Nat) (l : List SdVnode) : List SdVnode :=
  (List.range l.length).map fun i => l.getD ((i + j) % l.length) ⟨false, 0⟩

/-- First pass of `gateway_read_obj`: scan the vnode list in resolver order,
skip non-local vnodes; at the first local vnode do the one local read and
stop scanning (success returns, failure breaks to the fallback pass).
Returns `none` when no vnode is local. -/
def localPass (env : ReadEnv) : List SdVnode → Option Nat
  | [] => none
  | v :: rest =>
    if v.isLocal then some env.localReadResult else localPass env rest

/-- Fallback pass of `gateway_read_obj` over an already-ordered vnode list:
skip local vnodes, issue one remote read per remote vnode, stop at the
first success (copying its response out), keep the last error otherwise. -/
def fallbackLoop (env : ReadEnv) : List SdVnode → Nat → Nat × List ReadAction × Option Nat
  | [], ret => (ret, [], none)
  | v :: rest, ret =>
    if v.isLocal then fallbackLoop env rest ret
    else if env.execResult v.nid = SD_RES_SUCCESS then
      (SD_RES_SUCCESS, [ReadAction.remoteRead v.nid], some (env.rspOf v.nid))
    else
      let r := fallbackLoop env rest (env.execResult v.nid)
      (r.1, ReadAction.remoteRead v.nid :: r.2.1, r.2.2)

/-- `gateway_read_obj`: cache delegation when eligible; otherwise the
local-first pass, then the randomized cyclic fallback pass seeded with the
result left by the first pass.  Returns the result code, the action log and
the response copied out by a successful remote read. -/
def gateway_read_obj (env : ReadEnv) (req : Request) : Nat × List ReadAction × Option Nat :=
  if env.enableCache && !req.localReq && !env.bypassCache then
    (env.cacheResult, [ReadAction.cacheCall], none)
  else
    match localPass env env.vnodes with
    | some r =>
      if r = SD_RES_SUCCESS then
        (SD_RES_SUCCESS, [ReadAction.localRead], none)
      else
        let f := fallbackLoop env (cyclicOrder env.j env.vnodes) r
        (f.1, ReadAction.localRead :: f.2.1, f.2.2)
    | none =>
      fallbackLoop env (cyclicOrder env.j env.vnodes) SD_RES_SUCCESS

/-- The remote replicas of a visit order, i.e. the vnodes the fallback pass
actually contacts. -/
def remotesOf (l : List SdVnode) : List SdVnode := l.filter fun v => !v.isLocal

/-- One entry of `struct forward_info`: the target node identity and the
pooled connection handle obtained for it (the poll descriptor is the
connection's fd and is left implicit). -/
structure FwdEntry where
  nid : Nat
  sfd : Nat
  deriving Repr, DecidableEq

/-- Calls the write-class paths make into their collaborators:
cache delegation, `sockfd_cache_get`, `send_req`, `sockfd_cache_put`,
`sockfd_cache_del` and `sockfd_cache_del_node`. -/
inductive GwAction
  | cacheCall
  | acquire (nid : Nat)
  | send (nid : Nat)
  | put (nid : Nat) (sfd : Nat)
  | del (nid : Nat) (sfd : Nat)
  | delNode (nid : Nat)
  deriving Repr, DecidableEq

/-- Outcome of one pass of the wait loop, as decided by the environment:
`poll` fails with EINTR; `poll` times out with nothing ready; or some entry
at position `i` of the current pending array is the first with `POLLIN` set,
with `errFlags` telling whether its revents also carry
`POLLERR|POLLHUP|POLLNVAL`, `readOk` whether the `do_read` of the response
header succeeds, and `result` the result code embedded in that header.
An `i` past the end of the pending array models a `poll` return with no
`POLLIN` entry, in which case the pass handles nothing. -/
inductive PollOutcome
  | eintr
  | timeout
  | ready (i : Nat) (errFlags : Bool) (readOk : Bool) (result : Nat)
  deriving Repr, DecidableEq

/-- `wait_forward_request`, driven by a trace of poll outcomes:
EINTR repeats the poll; a timeout consults `sheep_need_retry` and the retry
budget, and on refusal or exhaustion closes every pending connection and
reports a network error; a ready entry is classified (hangup / read
failure → evict with network error, clean read → record a non-success
result, return the connection to the pool), removed from the pending set,
and the loop repeats until no entry is pending.  Returns `none` when the
trace ends before the pending set drains (the C code would still be
polling). -/
def runWait (needRetry : Nat → Bool) (epoch : Nat) :
    List PollOutcome → List FwdEntry → Nat → Nat → Option (Nat × List GwAction)
  | [], _, _, _ => none
  | ev :: rest, entries, budget, errRet =>
    match ev with
    | .eintr => runWait needRetry epoch rest entries budget errRet
    | .timeout =>
      if needRetry epoch && (budget != 0) then
        runWait needRetry epoch rest entries (budget - 1) errRet
      else
        some (SD_RES_NETWORK_ERROR, entries.map fun e => GwAction.del e.nid e.sfd)
    | .ready i errFlags readOk result =>
      if h : i < entries.length then
        let e := entries.get ⟨i, h⟩
        let entries2 := entries.eraseIdx i
        let failed := errFlags || !readOk
        let err2 := if failed then SD_RES_NETWORK_ERROR
                    else if result ≠ SD_RES_SUCCESS then result else errRet
        let act := if failed then GwAction.del e.nid e.sfd else GwAction.put e.nid e.sfd
        if entries2.isEmpty then some (err2, [act])
        else
          match runWait needRetry epoch rest entries2 budget err2 with
          | none => none
          | some (res, log) => some (res, act :: log)
      else
        runWait needRetry epoch rest entries budget errRet

/-- Environment of the fan-out send phase: the resolved distinct physical
target nodes (`oid_to_nodes` output, one per copy), the pool's answer to
`sockfd_cache_get`, whether `send_req` to a node succeeds, the retry oracle
`sheep_need_retry`, and the poll-outcome trace driving the wait loop. -/
structure FwdEnv where
  targetNodes : List Nat
  sockfdGet : Nat → Option Nat
  sendOk : Nat → Bool
  needRetry : Nat → Bool
  trace : List PollOutcome

/-- The send loop of `gateway_forward_request`: walk the target nodes in
order; on a pool-acquisition failure stop at once with a network error; on a
send failure drop that node's pooled connections and stop with a network
error; each successful send registers a pending entry.  Returns the pending
entries, the send-phase sticky error and the action log. -/
def sendLoop (env : FwdEnv) : List Nat → List FwdEntry × Nat × List GwAction
  | [] => ([], SD_RES_SUCCESS, [])
  | nid :: rest =>
    match env.sockfdGet nid with
    | none => ([], SD_RES_NETWORK_ERROR, [GwAction.acquire nid])
    | some sfd =>
      if env.sendOk nid then
        let r := sendLoop env rest
        (⟨nid, sfd⟩ :: r.1, r.2.1, GwAction.acquire nid :: GwAction.send nid :: r.2.2)
      else
        ([], SD_RES_NETWORK_ERROR,
          [GwAction.acquire nid, GwAction.send nid, GwAction.delNode nid])

/-- `gateway_forward_request`: run the send phase over the resolved target
nodes; if anything was sent, hand the pending entries to
`wait_forward_request` and let a non-success wait result overwrite the
send-phase error, a clean wait leave it in place. -/
def gateway_forward_request (env : FwdEnv) (req : Request) : Option (Nat × List GwAction) :=
  let s := sendLoop env env.targetNodes
  if s.1.isEmpty then some (s.2.1, s.2.2)
  else
    match runWait env.needRetry req.rq.epoch env.trace s.1 MAX_RETRY_COUNT SD_RES_SUCCESS with
    | none => none
    | some (wret, wlog) =>
      some ((if wret ≠ SD_RES_SUCCESS then wret else s.2.1), s.2.2 ++ wlog)

/-- `gateway_write_obj`: read-only check first, then cache delegation unless
bypassed, then the full fan-out.  `oid_is_readonly` and
`bypass_object_cache` are external and passed in. -/
def gateway_write_obj (oid_is_readonly : Nat → Bool) (bypass : Bool) (cacheResult : Nat)
    (env : FwdEnv) (req : Request) : Option (Nat × List GwAction) :=
  if oid_is_readonly req.rq.oid then some (SD_RES_READONLY, [])
  else if !bypass then some (cacheResult, [GwAction.cacheCall])
  else gateway_forward_request env req

/-- `gateway_create_and_write_obj`: same body as `gateway_write_obj`. -/
def gateway_create_and_write_obj (oid_is_readonly : Nat → Bool) (bypass : Bool)
    (cacheResult : Nat) (env : FwdEnv) (req : Request) : Option (Nat × List GwAction) :=
  if oid_is_readonly req.rq.oid then some (SD_RES_READONLY, [])
  else if !bypass then some (cacheResult, [GwAction.cacheCall])
  else gateway_forward_request env req

/-- `gateway_remove_obj`: unconditionally the fan-out, nothing else. -/
def gateway_remove_obj (env : FwdEnv) (req : Request) : Option (Nat × List GwAction) :=
  gateway_forward_request env req

/-- Whether an action is a `sockfd_cache_get` call, i.e. the start of one
replica exchange. -/
def GwAction.isAcquire : GwAction → Bool
  | .acquire _ => true
  | _ => false

/-- Whether a poll outcome is a cleanly-read success response. -/
def PollOutcome.isCleanSuccess : PollOutcome → Bool
  | .ready _ ef ro r => !ef && ro && (r == SD_RES_SUCCESS)
  | _ => false

/-- Whether a poll outcome is the EINTR case. -/
def PollOutcome.isEintr : PollOutcome → Bool
  | .eintr => true
  | _ => false

/-! ### Shared sample inputs for witnesses -/

/-- A sample request used by witness instantiations. -/
def sampleReq : Request := ⟨⟨1, 2, 3, 4, 5, 6, 7⟩, false⟩

/-! ### General list helpers -/

/-- Membership in a list splits into being the element at a given index or
being a member of the list with that index erased. -/
theorem mem_get_or_mem_eraseIdx {α : Type} (l : List α) (i : Nat) (h : i < l.length)
    (a : α) (ha : a ∈ l) : a = l.get ⟨i, h⟩ ∨ a ∈ l.eraseIdx i := by
  induction l generalizing i with
  | nil => cases ha
  | cons x xs ih =>
    cases i with
    | zero =>
      rcases List.mem_cons.mp ha with h1 | h1
      · exact Or.inl h1
      · exact Or.inr h1
    | succ n =>
      rcases List.mem_cons.mp ha with h1 | h1
      · exact Or.inr (by simp [List.eraseIdx, h1])
      · rcases ih n (by simpa using h) h1 with h2 | h2
        · exact Or.inl h2
        · exact Or.inr (List.mem_cons_of_mem x h2)

/-- If erasing index `i` empties the list, every member is the element at
index `i`. -/
theorem eq_get_of_eraseIdx_nil {α : Type} (l : List α) (i : Nat) (h : i < l.length)
    (h2 : l.eraseIdx i = []) : ∀ a ∈ l, a = l.get ⟨i, h⟩ := by
  match l, i with
  | [], _ => cases h
  | [x], 0 => intro a ha; simpa using ha
  | x :: y :: xs, 0 => simp [List.eraseIdx] at h2
  | x :: xs, i + 1 => simp [List.eraseIdx] at h2

/-! ### C9: the forwarded header -/

/-- C9: the forwarded inter-node header differs from the incoming request
header only in the opcode (rewritten through the peer-opcode table) and the
protocol version (stamped to `SD_SHEEP_PROTO_VER`); every other header field
is copied verbatim. -/
theorem fwd_hdr_fields (gateway_to_peer_opcode : Nat → Nat) (hdr : SdReq) :
    (gateway_init_fwd_hdr gateway_to_peer_opcode hdr).opcode
        = gateway_to_peer_opcode hdr.opcode ∧
    (gateway_init_fwd_hdr gateway_to_peer_opcode hdr).proto_ver = SD_SHEEP_PROTO_VER ∧
    (gateway_init_fwd_hdr gateway_to_peer_opcode hdr).flags = hdr.flags ∧
    (gateway_init_fwd_hdr gateway_to_peer_opcode hdr).epoch = hdr.epoch ∧
    (gateway_init_fwd_hdr gateway_to_peer_opcode hdr).data_length = hdr.data_length ∧
    (gateway_init_fwd_hdr gateway_to_peer_opcode hdr).oid = hdr.oid ∧
    (gateway_init_fwd_hdr gateway_to_peer_opcode hdr).restFields = hdr.restFields :=
  ⟨rfl, rfl, rfl, rfl, rfl, rfl, rfl⟩

/-! ### C3: read-only fast fail of the write entry points -/

/-- C3: for an object id in the read-only range, both write entry points
return the read-only error with an empty action log — no cache consultation
and no network I/O — whatever the cache-bypass setting is. -/
theorem write_readonly_fast_fail (oid_is_readonly : Nat → Bool) (bypass : Bool)
    (cacheResult : Nat) (env : FwdEnv) (req : Request)
    (h : oid_is_readonly req.rq.oid = true) :
    gateway_write_obj oid_is_readonly bypass cacheResult env req
        = some (SD_RES_READONLY, []) ∧
    gateway_create_and_write_obj oid_is_readonly bypass cacheResult env req
        = some (SD_RES_READONLY, []) := by
  constructor
  · simp [gateway_write_obj, h]
  · simp [gateway_create_and_write_obj, h]

/-- A forward environment no write should reach: pool and sends all fail. -/
def deadFwdEnv : FwdEnv := ⟨[0, 1, 2], fun _ => none, fun _ => false, fun _ => true, []⟩

/-- Witness for C3 at a concrete read-only oid, with cache bypass off. -/
theorem write_readonly_fast_fail_witness :
    gateway_write_obj (fun oid => oid == 6) false 9 deadFwdEnv sampleReq
        = some (SD_RES_READONLY, []) ∧
    gateway_create_and_write_obj (fun oid => oid == 6) false 9 deadFwdEnv sampleReq
        = some (SD_RES_READONLY, []) :=
  write_readonly_fast_fail (fun oid => oid == 6) false 9 deadFwdEnv sampleReq rfl

/-! ### C8: EINTR never consumes the retry budget -/

/-- C8: a recoverable interrupt of the multiplexed wait repeats the same
blocking wait with the pending set, budget and sticky error untouched:
the wait behaves exactly as if the EINTR outcomes were not there, so only
genuine timeouts consume the retry budget. -/
theorem wait_eintr_no_budget (nr : Nat → Bool) (epoch : Nat) (trace : List PollOutcome)
    (entries : List FwdEntry) (budget errRet : Nat) :
    runWait nr epoch trace entries budget errRet =
      runWait nr epoch (trace.filter fun ev => !ev.isEintr) entries budget errRet := by
  induction trace generalizing entries budget errRet with
  | nil => rfl
  | cons ev rest ih =>
    cases ev with
    | eintr =>
      simp only [List.filter_cons, PollOutcome.isEintr, Bool.not_true, Bool.false_eq_true,
        if_false, runWait]
      exact ih entries budget errRet
    | timeout =>
      simp only [List.filter_cons, PollOutcome.isEintr, Bool.not_false, if_true, runWait]
      split
      · exact ih entries (budget - 1) errRet
      · rfl
    | ready i ef ro r =>
      simp only [List.filter_cons, PollOutcome.isEintr, Bool.not_false, if_true, runWait]
      by_cases h : i < entries.length
      · rw [dif_pos h, dif_pos h]
        split
        · rfl
        · rw [ih]
          exact rfl
      · rw [dif_neg h, dif_neg h]
        exact ih entries budget errRet

/-! ### C5: local-first read policy -/

/-- The first pass performs the single local read exactly when some vnode is
local, and its outcome is the local read's outcome. -/
theorem localPass_eq (env : ReadEnv) (l : List SdVnode) :
    localPass env l =
      if l.any (fun v => v.isLocal) then some env.localReadResult else none := by
  induction l with
  | nil => rfl
  | cons v rest ih =>
    by_cases hv : v.isLocal
    · simp [localPass, hv]
    · simp [localPass, hv, ih]

/-- C5: off the cache path, when the resolved replica list contains a local
vnode, `gateway_read_obj` does exactly one local read; on its success it
returns at once with no remote RPC (the log is just the local read), and on
its failure it moves straight to the fallback pass without trying any other
local candidate (the log is the one local read followed by the fallback
pass's remote reads). -/
theorem read_local_first (env : ReadEnv) (req : Request)
    (hnc : (env.enableCache && !req.localReq && !env.bypassCache) = false)
    (hl : env.vnodes.any (fun v => v.isLocal) = true) :
    (env.localReadResult = SD_RES_SUCCESS →
      gateway_read_obj env req = (SD_RES_SUCCESS, [ReadAction.localRead], none)) ∧
    (env.localReadResult ≠ SD_RES_SUCCESS →
      gateway_read_obj env req =
        ((fallbackLoop env (cyclicOrder env.j env.vnodes) env.localReadResult).1,
         ReadAction.localRead ::
           (fallbackLoop env (cyclicOrder env.j env.vnodes) env.localReadResult).2.1,
         (fallbackLoop env (cyclicOrder env.j env.vnodes) env.localReadResult).2.2)) := by
  constructor
  · intro hs
    simp [gateway_read_obj, hnc, localPass_eq, hl, hs]
  · intro hs
    simp [gateway_read_obj, hnc, localPass_eq, hl, hs]

/-- Read environment for the C5 witness, healthy local copy. -/
def readEnvLocalOk : ReadEnv :=
  ⟨false, false, 9, [⟨false, 1⟩, ⟨true, 0⟩, ⟨false, 2⟩], SD_RES_SUCCESS,
    (fun _ => 3), (fun n => 100 + n), 1⟩

/-- Read environment for the C5/C6 witnesses, failing local copy; the remote
on node 1 fails, the remote on node 2 succeeds. -/
def readEnvLocalBad : ReadEnv :=
  ⟨false, false, 9, [⟨true, 0⟩, ⟨false, 1⟩, ⟨false, 2⟩], 5,
    (fun n => if n == 2 then SD_RES_SUCCESS else 3), (fun n => 100 + n), 1⟩

/-- Witness for C5: with a healthy local copy, the read returns right after
the local read; with a failing local copy, it does the one local read and
then remote reads in the cyclic order until node 2 answers. -/
theorem read_local_first_witness :
    gateway_read_obj readEnvLocalOk sampleReq
        = (SD_RES_SUCCESS, [ReadAction.localRead], none) ∧
    gateway_read_obj readEnvLocalBad sampleReq
        = (SD_RES_SUCCESS,
           [ReadAction.localRead, ReadAction.remoteRead 1, ReadAction.remoteRead 2],
           some 102) :=
  ⟨(read_local_first readEnvLocalOk sampleReq rfl rfl).1 rfl,
   (read_local_first readEnvLocalBad sampleReq rfl rfl).2 (by decide)⟩

/-! ### C6: the randomized cyclic fallback pass -/

/-- The error a failed fallback pass leaves behind: the result of the last
remote read attempted, or the seed result when no remote was attempted. -/
def lastErrorOf (env : ReadEnv) (F : List SdVnode) (ret0 : Nat) : Nat :=
  match F.getLast? with
  | none => ret0
  | some v => env.execResult v.nid

/-- Peeling one failed remote off `lastErrorOf`. -/
theorem lastErrorOf_cons (env : ReadEnv) (v : SdVnode) (F : List SdVnode) (ret0 : Nat) :
    lastErrorOf env (v :: F) ret0 = lastErrorOf env F (env.execResult v.nid) := by
  cases F with
  | nil => rfl
  | cons w F' =>
    simp only [lastErrorOf, List.getLast?_cons_cons]
    cases h : (w :: F').getLast? with
    | none => simp at h
    | some u => rfl

/-- Characterization of the fallback pass over an arbitrary visit order:
it contacts exactly the non-local vnodes in order, one RPC each, up to and
including the first success (whose response it copies out), and when every
remote read fails it reports the last error observed. -/
theorem fallbackLoop_split (env : ReadEnv) (l : List SdVnode) (ret0 : Nat) :
    (∀ s S,
      (remotesOf l).dropWhile (fun v => env.execResult v.nid != SD_RES_SUCCESS) = s :: S →
      fallbackLoop env l ret0 =
        (SD_RES_SUCCESS,
         ((remotesOf l).takeWhile (fun v => env.execResult v.nid != SD_RES_SUCCESS)
             ++ [s]).map (fun v => ReadAction.remoteRead v.nid),
         some (env.rspOf s.nid))) ∧
    ((remotesOf l).dropWhile (fun v => env.execResult v.nid != SD_RES_SUCCESS) = [] →
      fallbackLoop env l ret0 =
        (lastErrorOf env
           ((remotesOf l).takeWhile (fun v => env.execResult v.nid != SD_RES_SUCCESS)) ret0,
         ((remotesOf l).takeWhile (fun v => env.execResult v.nid != SD_RES_SUCCESS)).map
           (fun v => ReadAction.remoteRead v.nid),
         none)) := by
  induction l generalizing ret0 with
  | nil =>
    constructor
    · intro s S h
      simp [remotesOf] at h
    · intro _
      simp [remotesOf, fallbackLoop, lastErrorOf]
  | cons v rest ih =>
    by_cases hv : v.isLocal
    · have hrem : remotesOf (v :: rest) = remotesOf rest := by simp [remotesOf, hv]
      have hfb : fallbackLoop env (v :: rest) ret0 = fallbackLoop env rest ret0 := by
        simp [fallbackLoop, hv]
      rw [hrem, hfb]
      exact ih ret0
    · have hrem : remotesOf (v :: rest) = v :: remotesOf rest := by simp [remotesOf, hv]
      rw [hrem]
      by_cases hx : env.execResult v.nid = SD_RES_SUCCESS
      · have hpred : (env.execResult v.nid != SD_RES_SUCCESS) = false := by simp [hx]
        constructor
        · intro s S h
          rw [List.dropWhile_cons, hpred] at h
          rw [List.takeWhile_cons, hpred]
          obtain ⟨hs, _⟩ := List.cons.inj h
          subst hs
          simp [fallbackLoop, hv, hx]
        · intro h
          rw [List.dropWhile_cons, hpred] at h
          cases h
      · have hpred : (env.execResult v.nid != SD_RES_SUCCESS) = true := by
          simp [bne_iff_ne, hx]
        have hfb : fallbackLoop env (v :: rest) ret0 =
            ((fallbackLoop env rest (env.execResult v.nid)).1,
             ReadAction.remoteRead v.nid ::
               (fallbackLoop env rest (env.execResult v.nid)).2.1,
             (fallbackLoop env rest (env.execResult v.nid)).2.2) := by
          simp [fallbackLoop, hv, hx]
        constructor
        · intro s S h
          rw [List.dropWhile_cons, hpred] at h
          rw [List.takeWhile_cons, hpred]
          rw [hfb, (ih (env.execResult v.nid)).1 s S h]
          simp
        · intro h
          rw [List.dropWhile_cons, hpred] at h
          rw [List.takeWhile_cons, hpred]
          rw [hfb, (ih (env.execResult v.nid)).2 h]
          simp [lastErrorOf_cons]

/-- C6: the fallback pass visits the replica list in the cyclic order
`(j, j+1, ...) mod nr_copies` for the drawn offset `j`, skips every local
vnode, issues exactly one remote read per remote vnode visited, stops at the
first success and copies its response into the response buffer, and when no
remote read succeeds it returns the last error observed. -/
theorem read_fallback_cyclic (env : ReadEnv) (ret0 : Nat) :
    (∀ s S,
      (remotesOf (cyclicOrder env.j env.vnodes)).dropWhile
          (fun v => env.execResult v.nid != SD_RES_SUCCESS) = s :: S →
      fallbackLoop env (cyclicOrder env.j env.vnodes) ret0 =
        (SD_RES_SUCCESS,
         ((remotesOf (cyclicOrder env.j env.vnodes)).takeWhile
             (fun v => env.execResult v.nid != SD_RES_SUCCESS)
             ++ [s]).map (fun v => ReadAction.remoteRead v.nid),
         some (env.rspOf s.nid))) ∧
    ((remotesOf (cyclicOrder env.j env.vnodes)).dropWhile
        (fun v => env.execResult v.nid != SD_RES_SUCCESS) = [] →
      fallbackLoop env (cyclicOrder env.j env.vnodes) ret0 =
        (lastErrorOf env
           ((remotesOf (cyclicOrder env.j env.vnodes)).takeWhile
             (fun v => env.execResult v.nid != SD_RES_SUCCESS)) ret0,
         ((remotesOf (cyclicOrder env.j env.vnodes)).takeWhile
             (fun v => env.execResult v.nid != SD_RES_SUCCESS)).map
           (fun v => ReadAction.remoteRead v.nid),
         none)) :=
  fallbackLoop_split env (cyclicOrder env.j env.vnodes) ret0

/-- Witness for C6: for offset 1 over `{local 0, remote 1, remote 2}`, the
visit order is nodes 1, 2, then the local one; node 1 fails, node 2 answers,
so exactly two remote reads are issued and node 2's response is returned. -/
theorem read_fallback_cyclic_witness :
    fallbackLoop readEnvLocalBad (cyclicOrder readEnvLocalBad.j readEnvLocalBad.vnodes) 5
        = (SD_RES_SUCCESS, [ReadAction.remoteRead 1, ReadAction.remoteRead 2], some 102) :=
  (read_fallback_cyclic readEnvLocalBad 5).1 ⟨false, 2⟩ [] (by decide)

/-! ### Wait-loop draining and sticky-error lemmas -/

/-- Drain discipline of the wait loop: whenever it returns, every entry that
was pending when it started has been finished — its connection was either
returned to the pool or evicted. -/
theorem runWait_drains (nr : Nat → Bool) (epoch : Nat) (trace : List PollOutcome)
    (entries : List FwdEntry) (budget errRet res : Nat) (log : List GwAction)
    (h : runWait nr epoch trace entries budget errRet = some (res, log)) :
    ∀ e ∈ entries, GwAction.put e.nid e.sfd ∈ log ∨ GwAction.del e.nid e.sfd ∈ log := by
  induction trace generalizing entries budget errRet res log with
  | nil => simp [runWait] at h
  | cons ev rest ih =>
    cases ev with
    | eintr => exact ih _ _ _ _ _ h
    | timeout =>
      rw [runWait] at h
      split at h
      · exact ih _ _ _ _ _ h
      · simp only [Option.some.injEq, Prod.mk.injEq] at h
        intro e he
        right
        rw [← h.2]
        exact List.mem_map_of_mem _ he
    | ready i ef ro r =>
      simp only [runWait] at h
      split at h
      case isTrue hlt =>
        split at h
        case isTrue hemp =>
          simp only [Option.some.injEq, Prod.mk.injEq] at h
          intro e he
          have he2 := eq_get_of_eraseIdx_nil entries i hlt
            (List.isEmpty_iff.mp hemp) e he
          rw [← h.2, he2]
          by_cases hf : (ef || !ro) = true
          · right; simp [hf]
          · left; simp [hf]
        case isFalse hemp =>
          split at h
          case h_1 => cases h
          case h_2 res' log' heq =>
            simp only [Option.some.injEq, Prod.mk.injEq] at h
            intro e he
            rcases mem_get_or_mem_eraseIdx entries i hlt e he with h1 | h1
            · rw [← h.2, h1]
              by_cases hf : (ef || !ro) = true
              · right; simp [hf]
              · left; simp [hf]
            · rcases ih _ _ _ _ _ heq e h1 with h2 | h2
              · left; rw [← h.2]; exact List.mem_cons_of_mem _ h2
              · right; rw [← h.2]; exact List.mem_cons_of_mem _ h2
      case isFalse hlt => exact ih _ _ _ _ _ h

/-- A wait pass that only ever sees cleanly-read success responses leaves
the sticky error exactly as it found it. -/
theorem runWait_clean_success (nr : Nat → Bool) (epoch : Nat) (trace : List PollOutcome)
    (entries : List FwdEntry) (budget errRet res : Nat) (log : List GwAction)
    (hc : ∀ ev ∈ trace, ev.isCleanSuccess = true)
    (h : runWait nr epoch trace entries budget errRet = some (res, log)) :
    res = errRet := by
  induction trace generalizing entries budget errRet res log with
  | nil => simp [runWait] at h
  | cons ev rest ih =>
    have hev := hc ev (List.mem_cons_self ev rest)
    have hrest : ∀ e ∈ rest, e.isCleanSuccess = true :=
      fun e he => hc e (List.mem_cons_of_mem _ he)
    cases ev with
    | eintr => simp [PollOutcome.isCleanSuccess] at hev
    | timeout => simp [PollOutcome.isCleanSuccess] at hev
    | ready i ef ro r =>
      simp only [PollOutcome.isCleanSuccess, Bool.and_eq_true, Bool.not_eq_true',
        beq_iff_eq] at hev
      obtain ⟨⟨hef, hro⟩, hr⟩ := hev
      subst hef hro hr
      simp only [runWait, Bool.not_true, Bool.or_false, Bool.false_eq_true, if_false,
        ne_eq, not_true_eq_false, ite_false] at h
      split at h
      case isTrue hlt =>
        split at h
        case isTrue hemp =>
          simp only [Option.some.injEq, Prod.mk.injEq] at h
          exact h.1.symm
        case isFalse hemp =>
          split at h
          case h_1 => cases h
          case h_2 res' log' heq =>
            simp only [Option.some.injEq, Prod.mk.injEq] at h
            rw [← h.1]
            exact ih _ _ _ _ _ hrest heq
      case isFalse hlt => exact ih _ _ _ _ _ hrest h

/-- The wait loop never opens a new exchange: its action log contains no
`sockfd_cache_get` call. -/
theorem runWait_no_acquire (nr : Nat → Bool) (epoch : Nat) (trace : List PollOutcome)
    (entries : List FwdEntry) (budget errRet res : Nat) (log : List GwAction)
    (h : runWait nr epoch trace entries budget errRet = some (res, log)) :
    ∀ a ∈ log, a.isAcquire = false := by
  induction trace generalizing entries budget errRet res log with
  | nil => simp [runWait] at h
  | cons ev rest ih =>
    cases ev with
    | eintr => exact ih _ _ _ _ _ h
    | timeout =>
      rw [runWait] at h
      split at h
      · exact ih _ _ _ _ _ h
      · simp only [Option.some.injEq, Prod.mk.injEq] at h
        intro a ha
        rw [← h.2] at ha
        obtain ⟨e, _, he⟩ := List.mem_map.mp ha
        rw [← he]
        rfl
    | ready i ef ro r =>
      simp only [runWait] at h
      split at h
      case isTrue hlt =>
        split at h
        case isTrue hemp =>
          simp only [Option.some.injEq, Prod.mk.injEq] at h
          intro a ha
          rw [← h.2] at ha
          rcases List.mem_singleton.mp ha with h1
          rw [h1]
          by_cases hf : (ef || !ro) = true
          · simp [hf]; rfl
          · simp [hf]; rfl
        case isFalse hemp =>
          split at h
          case h_1 => cases h
          case h_2 res' log' heq =>
            simp only [Option.some.injEq, Prod.mk.injEq] at h
            intro a ha
            rw [← h.2] at ha
            rcases List.mem_cons.mp ha with h1 | h1
            · rw [h1]
              by_cases hf : (ef || !ro) = true
              · simp [hf]; rfl
              · simp [hf]; rfl
            · exact ih _ _ _ _ _ heq a h1
      case isFalse hlt => exact ih _ _ _ _ _ h

/-- Where a wait result can come from: it is the sticky error the waiter
started with, the network-error code, or a result code read cleanly off the
wire during the wait. -/
theorem runWait_result_origin (nr : Nat → Bool) (epoch : Nat) (trace : List PollOutcome)
    (entries : List FwdEntry) (budget errRet res : Nat) (log : List GwAction)
    (h : runWait nr epoch trace entries budget errRet = some (res, log)) :
    res = errRet ∨ res = SD_RES_NETWORK_ERROR ∨
      ∃ i ef, PollOutcome.ready i ef true res ∈ trace := by
  induction trace generalizing entries budget errRet res log with
  | nil => simp [runWait] at h
  | cons ev rest ih =>
    cases ev with
    | eintr =>
      rcases ih _ _ _ _ _ h with h1 | h1 | ⟨i, ef, h1⟩
      · exact Or.inl h1
      · exact Or.inr (Or.inl h1)
      · exact Or.inr (Or.inr ⟨i, ef, List.mem_cons_of_mem _ h1⟩)
    | timeout =>
      rw [runWait] at h
      split at h
      · rcases ih _ _ _ _ _ h with h1 | h1 | ⟨i, ef, h1⟩
        · exact Or.inl h1
        · exact Or.inr (Or.inl h1)
        · exact Or.inr (Or.inr ⟨i, ef, List.mem_cons_of_mem _ h1⟩)
      · simp only [Option.some.injEq, Prod.mk.injEq] at h
        exact Or.inr (Or.inl h.1.symm)
    | ready i ef ro r =>
      simp only [runWait] at h
      split at h
      case isTrue hlt =>
        have origin2 : ∀ res2 : Nat,
            res2 = (if (ef || !ro) = true then SD_RES_NETWORK_ERROR
                    else if r ≠ SD_RES_SUCCESS then r else errRet) →
            res2 = errRet ∨ res2 = SD_RES_NETWORK_ERROR ∨
              ∃ i2 ef2, PollOutcome.ready i2 ef2 true res2
                ∈ PollOutcome.ready i ef ro r :: rest := by
          intro res2 h2
          by_cases hf : (ef || !ro) = true
          · rw [if_pos hf] at h2
            exact Or.inr (Or.inl h2)
          · rw [if_neg hf] at h2
            have hor : (ef || !ro) = false := by simpa using hf
            have hro : ro = true := by
              rcases Bool.or_eq_false_iff.mp hor with ⟨_, hro2⟩
              simpa using hro2
            by_cases hr : r ≠ SD_RES_SUCCESS
            · rw [if_pos hr] at h2
              exact Or.inr (Or.inr ⟨i, ef, by rw [h2, hro]; exact List.mem_cons_self _ _⟩)
            · rw [if_neg hr] at h2
              exact Or.inl h2
        split at h
        case isTrue hemp =>
          simp only [Option.some.injEq, Prod.mk.injEq] at h
          exact origin2 res h.1.symm
        case isFalse hemp =>
          split at h
          case h_1 => cases h
          case h_2 res' log' heq =>
            simp only [Option.some.injEq, Prod.mk.injEq] at h
            rcases ih _ _ _ _ _ heq with h1 | h1 | ⟨i2, ef2, h1⟩
            · exact origin2 res (h.1 ▸ h1)
            · exact Or.inr (Or.inl (h.1 ▸ h1))
            · exact Or.inr (Or.inr ⟨i2, ef2, h.1 ▸ List.mem_cons_of_mem _ h1⟩)
      case isFalse hlt =>
        rcases ih _ _ _ _ _ h with h1 | h1 | ⟨i2, ef2, h1⟩
        · exact Or.inl h1
        · exact Or.inr (Or.inl h1)
        · exact Or.inr (Or.inr ⟨i2, ef2, List.mem_cons_of_mem _ h1⟩)

/-! ### C1: partial send failure is sticky across a clean wait -/

/-- C1: when the send phase fails partway but some entries were sent, the
fan-out still runs the completion wait over every successfully-sent entry
(each of them is finished — returned or evicted — in the wait's log), and
even when the wait reports that every awaited entry completed cleanly the
call's result is the send phase's network error. -/
theorem forward_send_failure_sticky (env : FwdEnv) (req : Request)
    (entries : List FwdEntry) (slog wlog : List GwAction)
    (hsend : sendLoop env env.targetNodes = (entries, SD_RES_NETWORK_ERROR, slog))
    (hne : entries ≠ [])
    (hwait : runWait env.needRetry req.rq.epoch env.trace entries MAX_RETRY_COUNT SD_RES_SUCCESS
        = some (SD_RES_SUCCESS, wlog)) :
    gateway_forward_request env req = some (SD_RES_NETWORK_ERROR, slog ++ wlog) ∧
    ∀ e ∈ entries, GwAction.put e.nid e.sfd ∈ wlog ∨ GwAction.del e.nid e.sfd ∈ wlog := by
  constructor
  · have hne2 : entries.isEmpty = false := by
      cases entries with
      | nil => exact absurd rfl hne
      | cons a l => rfl
    simp only [gateway_forward_request, hsend, hne2, Bool.false_eq_true, if_false, hwait]
    simp
  · exact fun e he => runWait_drains _ _ _ _ _ _ _ _ hwait e he

/-- Forward environment for the C1 witness: two replica nodes, the send to
node 0 succeeds, the send to node 1 fails, and node 0 then answers
success. -/
def fwdEnvPartial : FwdEnv :=
  ⟨[0, 1], fun n => some (n + 10), fun n => n == 0, fun _ => true,
    [PollOutcome.ready 0 false true SD_RES_SUCCESS]⟩

/-- Witness for C1: node 1's send fails after node 0's succeeded; node 0's
entry is awaited (and its connection returned), yet the call reports the
network error. -/
theorem forward_send_failure_sticky_witness :
    gateway_forward_request fwdEnvPartial sampleReq
        = some (SD_RES_NETWORK_ERROR,
            [GwAction.acquire 0, GwAction.send 0, GwAction.acquire 1, GwAction.send 1,
             GwAction.delNode 1, GwAction.put 0 10]) ∧
    (GwAction.put 0 10 ∈ [GwAction.put 0 10] ∨ GwAction.del 0 10 ∈ [GwAction.put 0 10]) := by
  have h := forward_send_failure_sticky fwdEnvPartial sampleReq [⟨0, 10⟩]
    [GwAction.acquire 0, GwAction.send 0, GwAction.acquire 1, GwAction.send 1,
     GwAction.delNode 1]
    [GwAction.put 0 10] rfl (by decide) rfl
  exact ⟨h.1, h.2 ⟨0, 10⟩ (List.mem_singleton.mpr rfl)⟩

/-! ### C7: timeout retry budget and final eviction -/

/-- C7: a timed-out wait with nothing ready is retried exactly while the
epoch oracle approves and the budget is nonzero, one budget unit per
timeout; once the budget is exhausted (or the oracle refuses at once), the
waiter evicts every still-pending connection — returning none of them — and
the whole session reports the network error. -/
theorem wait_timeout_retry_policy (nr : Nat → Bool) (epoch : Nat) (n : Nat)
    (rest : List PollOutcome) (entries : List FwdEntry) (budget errRet : Nat) :
    (nr epoch = true →
      runWait nr epoch (List.replicate n PollOutcome.timeout ++ rest) entries budget errRet =
        if n ≤ budget then runWait nr epoch rest entries (budget - n) errRet
        else some (SD_RES_NETWORK_ERROR, entries.map fun e => GwAction.del e.nid e.sfd)) ∧
    (nr epoch = false →
      runWait nr epoch (PollOutcome.timeout :: rest) entries budget errRet =
        some (SD_RES_NETWORK_ERROR, entries.map fun e => GwAction.del e.nid e.sfd)) := by
  constructor
  · intro ht
    induction n generalizing budget with
    | zero => simp
    | succ m ih =>
      rw [List.replicate_succ, List.cons_append]
      cases budget with
      | zero =>
        simp only [runWait, ht, bne_self_eq_false, Bool.and_false, Bool.false_eq_true,
          if_false]
        rw [if_neg (by omega)]
      | succ b =>
        simp only [runWait, ht, Bool.true_and]
        rw [if_pos (by simp), Nat.add_sub_cancel, ih b]
        by_cases hc : m ≤ b
        · rw [if_pos hc, if_pos (by omega)]
          congr 1
          omega
        · rw [if_neg hc, if_neg (by omega)]
  · intro hf
    simp only [runWait, hf, Bool.false_and, Bool.false_eq_true, if_false]

/-- Witness for C7: three timeouts against a budget of two, with the oracle
always approving, end in eviction of the pending connection and a network
error. -/
theorem wait_timeout_retry_policy_witness :
    runWait (fun _ => true) 4 (List.replicate 3 PollOutcome.timeout ++ []) [⟨1, 5⟩] 2 0
        = some (SD_RES_NETWORK_ERROR, [GwAction.del 1 5]) := by
  have h := (wait_timeout_retry_policy (fun _ => true) 4 3 [] [⟨1, 5⟩] 2 0).1 rfl
  simpa using h

/-! ### C2: how many exchanges a remove attempts -/

/-- The send phase's sticky error is either success or the network error. -/
theorem sendLoop_err (env : FwdEnv) (l : List Nat) :
    (sendLoop env l).2.1 = SD_RES_SUCCESS ∨ (sendLoop env l).2.1 = SD_RES_NETWORK_ERROR := by
  induction l with
  | nil => exact Or.inl rfl
  | cons nid rest ih =>
    cases hg : env.sockfdGet nid with
    | none => right; simp [sendLoop, hg]
    | some sfd =>
      by_cases hs : env.sendOk nid
      · simpa [sendLoop, hg, hs] using ih
      · right; simp [sendLoop, hg, hs]

/-- The number of exchanges the send phase starts: one per leading node whose
acquire-and-send both succeed, plus the one node the loop fails on when not
all sends succeed — i.e. `min (successes + 1) (node count)`. -/
theorem sendLoop_acquires (env : FwdEnv) (l : List Nat) :
    ((sendLoop env l).2.2.filter GwAction.isAcquire).length =
      min ((l.takeWhile fun nid => (env.sockfdGet nid).isSome && env.sendOk nid).length + 1)
        l.length := by
  induction l with
  | nil => simp [sendLoop]
  | cons nid rest ih =>
    cases hg : env.sockfdGet nid with
    | none =>
      simp [sendLoop, hg, GwAction.isAcquire, List.takeWhile_cons]
    | some sfd =>
      by_cases hs : env.sendOk nid
      · simp [sendLoop, hg, hs, GwAction.isAcquire, List.takeWhile_cons,
          List.filter_cons, ih]
        omega
      · simp [sendLoop, hg, hs, GwAction.isAcquire, List.takeWhile_cons]

/-- Counterexample to C2: with two replica nodes and the very first send
failing, `gateway_remove_obj` starts only one exchange, not two — the claim
"always attempts exactly N distinct-physical-node exchanges, never fewer,
even if the send to one of the nodes fails early" does not hold of the
code, whose send loop stops at the first failure. -/
theorem remove_attempts_counterexample :
    gateway_remove_obj ⟨[0, 1], fun n => some (n + 10), fun _ => false, fun _ => true, []⟩
        sampleReq
      = some (SD_RES_NETWORK_ERROR,
          [GwAction.acquire 0, GwAction.send 0, GwAction.delNode 0]) ∧
    ([GwAction.acquire 0, GwAction.send 0, GwAction.delNode 0].filter
        GwAction.isAcquire).length = 1 ∧
    ([0, 1] : List Nat).length = 2 ∧ (1 : Nat) ≠ 2 := by
  refine ⟨by decide, by decide, by decide, by decide⟩

/-- C2 as amended: a remove walks the distinct target nodes in resolver
order and stops at the first acquisition/send failure, so the number of
exchanges it starts is `min (successes + 1) N` — exactly `N` when every
send succeeds, fewer when one fails early; the completion wait starts no
further exchange, and every exchange the send phase registered is still
drained by it — when the remove returns, each sent entry has been finished,
its connection returned to the pool or evicted. -/
theorem remove_attempts_amended (env : FwdEnv) (req : Request) :
    ((sendLoop env env.targetNodes).2.2.filter GwAction.isAcquire).length =
      min ((env.targetNodes.takeWhile fun nid =>
              (env.sockfdGet nid).isSome && env.sendOk nid).length + 1)
        env.targetNodes.length ∧
    ∀ r log, gateway_remove_obj env req = some (r, log) →
      (log.filter GwAction.isAcquire).length =
        ((sendLoop env env.targetNodes).2.2.filter GwAction.isAcquire).length ∧
      ∀ e ∈ (sendLoop env env.targetNodes).1,
        GwAction.put e.nid e.sfd ∈ log ∨ GwAction.del e.nid e.sfd ∈ log := by
  constructor
  · exact sendLoop_acquires env env.targetNodes
  · intro r log h
    simp only [gateway_remove_obj, gateway_forward_request] at h
    split at h
    case isTrue hemp =>
      simp only [Option.some.injEq, Prod.mk.injEq] at h
      constructor
      · rw [← h.2]
      · intro e he
        rw [List.isEmpty_iff.mp hemp] at he
        cases he
    case isFalse hemp =>
      split at h
      case h_1 => cases h
      case h_2 wret wlog heq =>
        simp only [Option.some.injEq, Prod.mk.injEq] at h
        constructor
        · rw [← h.2, List.filter_append]
          have hnil : wlog.filter GwAction.isAcquire = [] := by
            rw [List.filter_eq_nil_iff]
            intro a ha
            simp [runWait_no_acquire _ _ _ _ _ _ _ _ heq a ha]
          rw [hnil, List.append_nil]
        · intro e he
          rcases runWait_drains _ _ _ _ _ _ _ _ heq e he with h1 | h1
          · exact Or.inl (by rw [← h.2]; exact List.mem_append_right _ h1)
          · exact Or.inr (by rw [← h.2]; exact List.mem_append_right _ h1)

/-- Forward environment for the C2 witness: both sends succeed and both
replicas answer success. -/
def fwdEnvAllOk : FwdEnv :=
  ⟨[0, 1], fun n => some (n + 10), fun _ => true, fun _ => true,
    [PollOutcome.ready 0 false true SD_RES_SUCCESS,
     PollOutcome.ready 0 false true SD_RES_SUCCESS]⟩

/-- Witness for the amended C2: with no failure, exactly two exchanges are
started, the full remove log holds exactly those two, and both sent entries
(nodes 0 and 1) are finished in that log. -/
theorem remove_attempts_amended_witness :
    ((sendLoop fwdEnvAllOk fwdEnvAllOk.targetNodes).2.2.filter GwAction.isAcquire).length = 2 ∧
    (([GwAction.acquire 0, GwAction.send 0, GwAction.acquire 1, GwAction.send 1,
       GwAction.put 0 10, GwAction.put 1 11] : List GwAction).filter
        GwAction.isAcquire).length = 2 ∧
    (GwAction.put 0 10 ∈
        [GwAction.acquire 0, GwAction.send 0, GwAction.acquire 1, GwAction.send 1,
         GwAction.put 0 10, GwAction.put 1 11] ∨
      GwAction.del 0 10 ∈
        [GwAction.acquire 0, GwAction.send 0, GwAction.acquire 1, GwAction.send 1,
         GwAction.put 0 10, GwAction.put 1 11]) ∧
    (GwAction.put 1 11 ∈
        [GwAction.acquire 0, GwAction.send 0, GwAction.acquire 1, GwAction.send 1,
         GwAction.put 0 10, GwAction.put 1 11] ∨
      GwAction.del 1 11 ∈
        [GwAction.acquire 0, GwAction.send 0, GwAction.acquire 1, GwAction.send 1,
         GwAction.put 0 10, GwAction.put 1 11]) := by
  have h := remove_attempts_amended fwdEnvAllOk sampleReq
  have h2 := h.2 SD_RES_SUCCESS
    [GwAction.acquire 0, GwAction.send 0, GwAction.acquire 1, GwAction.send 1,
     GwAction.put 0 10, GwAction.put 1 11] rfl
  refine ⟨h.1.trans (by decide), h2.1.trans (h.1.trans (by decide)), ?_, ?_⟩
  · exact h2.2 ⟨0, 10⟩ (by decide)
  · exact h2.2 ⟨1, 11⟩ (by decide)

/-! ### C4: recording of a cleanly-read non-success result -/

/-- Counterexample to C4: two replicas answer cleanly with the non-success
codes 5 then 7; the session's final error is 7, the last one read — the
first non-success result does not win.  (Both connections are returned to
the pool, as the log shows.) -/
theorem wait_first_error_counterexample :
    runWait (fun _ => true) 1
        [PollOutcome.ready 0 false true 5, PollOutcome.ready 0 false true 7]
        [⟨1, 11⟩, ⟨2, 12⟩] 3 SD_RES_SUCCESS
      = some (7, [GwAction.put 1 11, GwAction.put 2 12]) ∧
    (5 : Nat) ≠ SD_RES_SUCCESS ∧ (7 : Nat) ≠ SD_RES_SUCCESS ∧ (7 : Nat) ≠ 5 := by
  refine ⟨by decide, by decide, by decide, by decide⟩

/-- C4 as amended: a cleanly-read non-success result code becomes the
session's error — the connection that delivered it is returned to the pool,
not evicted, and later entries that complete cleanly with success do not
clear it (though a later failure would overwrite it: the last recorded
failure wins). -/
theorem wait_nonsuccess_sticky (nr : Nat → Bool) (epoch : Nat) (i r budget errRet : Nat)
    (rest : List PollOutcome) (entries : List FwdEntry)
    (hi : i < entries.length) (hr : r ≠ SD_RES_SUCCESS)
    (hrest : ∀ ev ∈ rest, ev.isCleanSuccess = true) :
    ∀ res log,
      runWait nr epoch (PollOutcome.ready i false true r :: rest) entries budget errRet
        = some (res, log) →
      res = r ∧
      log.head? = some (GwAction.put (entries.get ⟨i, hi⟩).nid (entries.get ⟨i, hi⟩).sfd) := by
  intro res log h
  simp only [runWait] at h
  rw [dif_pos hi] at h
  simp only [Bool.not_true, Bool.or_false, Bool.false_eq_true, if_false, ne_eq] at h
  rw [if_pos hr] at h
  split at h
  case isTrue hemp =>
    simp only [Option.some.injEq, Prod.mk.injEq] at h
    exact ⟨h.1.symm, by rw [← h.2]; rfl⟩
  case isFalse hemp =>
    split at h
    case h_1 => cases h
    case h_2 res' log' heq =>
      simp only [Option.some.injEq, Prod.mk.injEq] at h
      refine ⟨?_, by rw [← h.2]; rfl⟩
      rw [← h.1]
      exact runWait_clean_success _ _ _ _ _ _ _ _ hrest heq

/-- Witness for the amended C4: replica at entry 0 cleanly reports error 5,
the remaining replica then reports clean success; the session ends with
error 5 and the first log entry returns the connection to the pool. -/
theorem wait_nonsuccess_sticky_witness :
    ∃ res log,
      runWait (fun _ => true) 0
          [PollOutcome.ready 0 false true 5, PollOutcome.ready 0 false true SD_RES_SUCCESS]
          [⟨1, 11⟩, ⟨2, 12⟩] 3 SD_RES_SUCCESS
        = some (res, log) ∧
      res = 5 ∧ log.head? = some (GwAction.put 1 11) :=
  ⟨5, [GwAction.put 1 11, GwAction.put 2 12], rfl,
    wait_nonsuccess_sticky (fun _ => true) 0 0 5 3 SD_RES_SUCCESS
      [PollOutcome.ready 0 false true SD_RES_SUCCESS] [⟨1, 11⟩, ⟨2, 12⟩]
      (by decide) (by decide) (by decide) 5 [GwAction.put 1 11, GwAction.put 2 12] rfl⟩

/-! ### C10: remove skips the read-only check -/

/-- C10: `gateway_remove_obj` is the bare fan-out: it never performs the
read-only check the write entry points perform (which short-circuit with the
read-only error and an empty log), and the only way a remove can ever
report the read-only code is that some replica answered with it over the
wire. -/
theorem remove_skips_readonly_check (oid_is_readonly : Nat → Bool) (bypass : Bool)
    (cacheResult : Nat) (env : FwdEnv) (req : Request) :
    gateway_remove_obj env req = gateway_forward_request env req ∧
    (oid_is_readonly req.rq.oid = true →
      gateway_write_obj oid_is_readonly bypass cacheResult env req
          = some (SD_RES_READONLY, []) ∧
      gateway_create_and_write_obj oid_is_readonly bypass cacheResult env req
          = some (SD_RES_READONLY, [])) ∧
    (∀ r log, gateway_remove_obj env req = some (r, log) → r = SD_RES_READONLY →
      ∃ i ef, PollOutcome.ready i ef true SD_RES_READONLY ∈ env.trace) := by
  refine ⟨rfl, ?_, ?_⟩
  · intro h
    constructor
    · simp [gateway_write_obj, h]
    · simp [gateway_create_and_write_obj, h]
  · intro r log h hro
    simp only [gateway_remove_obj, gateway_forward_request] at h
    split at h
    · simp only [Option.some.injEq, Prod.mk.injEq] at h
      rcases sendLoop_err env env.targetNodes with h1 | h1
      · rw [h.1, hro] at h1
        exact absurd h1 (by decide)
      · rw [h.1, hro] at h1
        exact absurd h1 (by decide)
    · split at h
      case h_1 => cases h
      case h_2 wret wlog heq =>
        simp only [Option.some.injEq, Prod.mk.injEq] at h
        by_cases hw : wret = SD_RES_SUCCESS
        · rw [if_neg (by simp [hw])] at h
          rcases sendLoop_err env env.targetNodes with h1 | h1
          · rw [h.1, hro] at h1
            exact absurd h1 (by decide)
          · rw [h.1, hro] at h1
            exact absurd h1 (by decide)
        · rw [if_pos hw] at h
          have hwr : wret = SD_RES_READONLY := by rw [h.1, hro]
          rcases runWait_result_origin _ _ _ _ _ _ _ _ heq with h1 | h1 | ⟨i, ef, h1⟩
          · exact absurd h1 hw
          · rw [hwr] at h1
            exact absurd h1 (by decide)
          · rw [hwr] at h1
            exact ⟨i, ef, h1⟩

/-- Forward environment for the C10 witness: one replica which answers the
read-only code over the wire. -/
def fwdEnvRemoteRO : FwdEnv :=
  ⟨[0], fun n => some (n + 10), fun _ => true, fun _ => true,
    [PollOutcome.ready 0 false true SD_RES_READONLY]⟩

/-- Witness for C10: on a read-only oid the write entry point
short-circuits, while remove is exactly the fan-out; and when this remove
does report read-only, the code indeed arrived over the wire. -/
theorem remove_skips_readonly_check_witness :
    gateway_remove_obj fwdEnvRemoteRO sampleReq
        = gateway_forward_request fwdEnvRemoteRO sampleReq ∧
    gateway_write_obj (fun _ => true) true 9 fwdEnvRemoteRO sampleReq
        = some (SD_RES_READONLY, []) ∧
    (∃ i ef, PollOutcome.ready i ef true SD_RES_READONLY ∈ fwdEnvRemoteRO.trace) := by
  have h := remove_skips_readonly_check (fun _ => true) true 9 fwdEnvRemoteRO sampleReq
  exact ⟨h.1, (h.2.1 rfl).1,
    h.2.2 SD_RES_READONLY [GwAction.acquire 0, GwAction.send 0, GwAction.put 0 10] rfl rfl⟩
